import Mathlib

/-!
Shallow embedding of the session-authentication subsystem of
`rust-graphql-server` (files `src/auth.rs` and `src/executor.rs`).

UUIDs are modelled as natural numbers, and the HMAC-SHA256 signature of the
external `hmac`/`jwt` crates is modelled as an ideal message-authentication
tag: an injective function of the secret and the serialized claims, so that
two tags coincide exactly when both the secret and the claims coincide.
A signed JWT string is modelled by its parse: the claims payload together
with the tag (the serialization of claims into the JWT payload is injective,
so string equality of issued tokens coincides with equality of the models).

The Redis database is modelled as an association list from keys to
(value, ttl) pairs; `SET key value EX ttl` overwrites the key, `GET` reads
it and `DEL` removes it, returning the number of keys removed, matching the
calls made in `executor.rs`. The `Uuid::new_v4()` calls of the source are
modelled by passing the freshly generated UUIDs as explicit arguments.
-/

set_option autoImplicit false

/-- UUIDs (`uuid::Uuid`) are modelled as natural numbers. -/
abbrev Uuid := Nat

/-- `SessionTokenSecret` (`Hmac<Sha256>` built from the configured secret
string) is modelled as a natural number identifying the key. -/
abbrev SessionTokenSecret := Nat

/-- `SessionTokenData` from `src/auth.rs`: the claims stored in a session
token. -/
structure SessionTokenData where
  /-- The ID of the session this token is associated with; used as the key
  in the Redis database. -/
  session_id : Uuid
  /-- Unique ID of this particular session token; differentiates session
  tokens associated with the same session. -/
  session_token_id : Uuid
  /-- The ID of the user this session token is associated with. -/
  user_id : Uuid
deriving DecidableEq, Repr

/-- The canonical serialization of the three-UUID claims into the JWT
payload (serde serialization is deterministic and injective on
`SessionTokenData`). -/
def SessionTokenData.serialize (data : SessionTokenData) : Nat :=
  Nat.pair data.session_id (Nat.pair data.session_token_id data.user_id)

/-- Ideal model of the HMAC-SHA256 tag over a serialized payload under a
secret: tags agree exactly when both the secret and the payload agree. -/
def macTag (secret : SessionTokenSecret) (payload : Nat) : Nat :=
  Nat.pair secret payload

/-- `SessionToken` from `src/auth.rs`: an encoded JWT session token string,
modelled by its parse into claims payload plus signature tag. -/
structure SessionToken where
  payload : SessionTokenData
  tag : Nat
deriving DecidableEq, Repr

/-- `SessionToken::encode`: encode session token data as a session token
using a specified secret (`data.sign_with_key(secret)`). -/
def SessionToken.encode (data : SessionTokenData) (secret : SessionTokenSecret) :
    SessionToken :=
  ⟨data, macTag secret data.serialize⟩

/-- `SessionToken::decode`: attempt to decode a session token using a
specified secret (`token.verify_with_key(secret).ok()`); returns the
token's data if the signature validates and `none` otherwise. -/
def SessionToken.decode (token : SessionToken) (secret : SessionTokenSecret) :
    Option SessionTokenData :=
  if token.tag = macTag secret token.payload.serialize then some token.payload else none

/-- `SessionToken::verify`: decode then re-encode with fresh signing;
returns the verified session token or `none`. -/
def SessionToken.verify (token : SessionToken) (secret : SessionTokenSecret) :
    Option SessionToken :=
  (SessionToken.decode token secret).map (fun data => SessionToken.encode data secret)

/-- The configuration fields of `Config` consumed by the session and
verification subsystem. -/
structure Config where
  session_token_secret : SessionTokenSecret
  session_token_expiration_seconds : Nat
  email_verification_code_expiration_seconds : Nat
deriving Repr

/-- The Redis session store: an association list from the string form of
`session_id` to the stored session-token string and its remaining TTL. -/
abbrev SessionStore := List (Uuid × SessionToken × Nat)

/-- Redis `GET key` on the session store. -/
def storeGet : SessionStore → Uuid → Option SessionToken
  | [], _ => none
  | (k, v, _) :: rest, key => if k = key then some v else storeGet rest key

/-- Redis `SET key value EX ttl` (`set_ex`) on the session store: the key
is overwritten with the new value and expiry. -/
def storeSetEx (store : SessionStore) (key : Uuid) (value : SessionToken) (ttl : Nat) :
    SessionStore :=
  (key, value, ttl) :: store.filter (fun e => e.1 != key)

/-- The number of keys Redis `DEL key` removes from the session store. -/
def storeDelCount (store : SessionStore) (key : Uuid) : Nat :=
  (store.filter (fun e => e.1 == key)).length

/-- Redis `DEL key` on the session store: the store after removal. -/
def storeDel (store : SessionStore) (key : Uuid) : SessionStore :=
  store.filter (fun e => e.1 != key)

/-- `Executor::create_session`: create a session for the specified user.
The two `Uuid::new_v4()` calls are modelled by the explicit arguments
`session_id` and `session_token_id`. Returns the new token and the updated
session store. -/
def create_session (cfg : Config) (user_id session_id session_token_id : Uuid)
    (store : SessionStore) : SessionToken × SessionStore :=
  let session_token_data : SessionTokenData :=
    ⟨session_id, session_token_id, user_id⟩
  let session_token := SessionToken.encode session_token_data cfg.session_token_secret
  (session_token,
    storeSetEx store session_id session_token cfg.session_token_expiration_seconds)

/-- `Executor::find_session`: find a session by ID and return its associated
session token after defensive re-verification (`.map(verify).flatten()`). -/
def find_session (cfg : Config) (session_id : Uuid) (store : SessionStore) :
    Option SessionToken :=
  (storeGet store session_id).bind
    (fun session_token => SessionToken.verify session_token cfg.session_token_secret)

/-- `Executor::refresh`: attempt to refresh a session token. The fresh
`Uuid::new_v4()` minted for the new token is the explicit argument
`fresh_session_token_id`. Returns the optional refreshed token and the
resulting session store. -/
def refresh (cfg : Config) (fresh_session_token_id : Uuid)
    (unverified_session_token : SessionToken) (store : SessionStore) :
    Option SessionToken × SessionStore :=
  match SessionToken.decode unverified_session_token cfg.session_token_secret with
  | some data =>
    match find_session cfg data.session_id store with
    | some current_session_token =>
      if current_session_token ≠ unverified_session_token then
        (none, store)
      else
        let refreshed_session_token := SessionToken.encode
          ⟨data.session_id, fresh_session_token_id, data.user_id⟩
          cfg.session_token_secret
        (some refreshed_session_token,
          storeSetEx store data.session_id refreshed_session_token
            cfg.session_token_expiration_seconds)
    | none => (none, store)
  | none => (none, store)

/-- `Executor::delete_session`: terminate a session by ID; returns whether
the session was found and deleted (`count != 0`), and the resulting store. -/
def delete_session (session_id : Uuid) (store : SessionStore) : Bool × SessionStore :=
  (storeDelCount store session_id != 0, storeDel store session_id)

/-- `Executor::logout`: use the provided session token to terminate a
session; returns whether the session was terminated, and the resulting
store. -/
def logout (cfg : Config) (unverified_session_token : SessionToken)
    (store : SessionStore) : Bool × SessionStore :=
  match SessionToken.decode unverified_session_token cfg.session_token_secret with
  | some data => delete_session data.session_id store
  | none => (false, store)

/-- Iterated refresh: run `refresh` once per entry of `fresh_ids`, feeding
each returned token into the next call; returns the list of issued tokens
(stopping at the first failure) and the final store. -/
def refresh_chain (cfg : Config) (fresh_ids : List Uuid) (token : SessionToken)
    (store : SessionStore) : List SessionToken × SessionStore :=
  match fresh_ids with
  | [] => ([], store)
  | fresh_id :: rest =>
    match refresh cfg fresh_id token store with
    | (some refreshed, store2) =>
      let (tokens, store3) := refresh_chain cfg rest refreshed store2
      (refreshed :: tokens, store3)
    | (none, store2) => ([], store2)

/-- The fields of the `users` table row (`models::User`) that the email
verification path reads and writes. -/
structure User where
  id : Uuid
  email : String
  email_verified_at : Option Nat
deriving DecidableEq, Repr

/-- The `users` table, modelled as a list of rows. -/
abbrev Db := List User

/-- `Executor::find_user`: `SELECT * FROM users WHERE id = $1` with
`fetch_optional`. -/
def find_user (db : Db) (id : Uuid) : Option User :=
  db.find? (fun user => user.id == id)

/-- `UPDATE users SET email_verified_at = $1 WHERE id = $2`. -/
def db_set_email_verified_at (db : Db) (id : Uuid) (at_time : Option Nat) : Db :=
  db.map (fun user =>
    if user.id == id then { user with email_verified_at := at_time } else user)

/-- The Redis verification-code store: an association list from key string
to the stored code and its remaining TTL. -/
abbrev CodeStore := List (String × String × Nat)

/-- Redis `GET key` on the verification-code store. -/
def codeGet : CodeStore → String → Option String
  | [], _ => none
  | (k, v, _) :: rest, key => if k = key then some v else codeGet rest key

/-- Redis `SET key value EX ttl` (`set_ex`) on the verification-code store. -/
def codeSetEx (store : CodeStore) (key value : String) (ttl : Nat) : CodeStore :=
  (key, value, ttl) :: store.filter (fun e => e.1 != key)

/-- Redis `DEL key` on the verification-code store. -/
def codeDel (store : CodeStore) (key : String) : CodeStore :=
  store.filter (fun e => e.1 != key)

/-- `Executor::create_email_verification_key`:
`format!("verify/{}/{}", user_id, email)`. -/
def create_email_verification_key (user_id : Uuid) (email : String) : String :=
  "verify/" ++ toString user_id ++ "/" ++ email

/-- `Executor::register_email_verification_code`: put a new email
verification code into the Redis database with the configured expiry. -/
def register_email_verification_code (cfg : Config) (user_id : Uuid) (email : String)
    (verification_code : String) (codes : CodeStore) : CodeStore :=
  codeSetEx codes (create_email_verification_key user_id email) verification_code
    cfg.email_verification_code_expiration_seconds

/-- `Executor::verify_user_email_address`: attempt to verify a user's email
address using the provided verification code. `now` models `Utc::now()`.
Returns whether verification succeeded together with the resulting `users`
table and verification-code store. -/
def verify_user_email_address (now : Nat) (db : Db) (user_id : Uuid)
    (verification_code : String) (codes : CodeStore) : Bool × Db × CodeStore :=
  match find_user db user_id with
  | none => (false, db, codes)
  | some user =>
    let verification_key := create_email_verification_key user.id user.email
    let stored_verification_code := codeGet codes verification_key
    if stored_verification_code = some verification_code then
      (true,
        db_set_email_verified_at db user_id (some now),
        codeDel codes verification_key)
    else
      (false, db, codes)

/-- Model of `rng.gen_range('A'..'Z')`: a uniform draw from the HALF-OPEN
character range `'A'..'Z'`, which holds the 25 characters `'A'` (code point
65) through `'Y'` (code point 89) — the upper bound of a Rust `..` range is
excluded. Characters are modelled by their Unicode code points; `draw` is
the sampler's underlying uniform value, reduced into the range's size. -/
def gen_range_A_to_Z_exclusive (draw : Nat) : Nat :=
  65 + draw % 25

/-- `Executor::generate_verification_code`:
`(0..6).map(|_| rng.gen_range('A'..'Z')).collect()`, the resulting string
given as the list of its characters' code points. The thread RNG is
modelled by `rng`, giving the sampler's uniform value for each of the six
draws. -/
def generate_verification_code (rng : Nat → Nat) : List Nat :=
  (List.range 6).map (fun i => gen_range_A_to_Z_exclusive (rng i))

/-! ### Helper lemmas shared by the claim theorems -/

lemma serialize_inj : ∀ {d1 d2 : SessionTokenData},
    d1.serialize = d2.serialize → d1 = d2 := by
  intro ⟨a1, b1, c1⟩ ⟨a2, b2, c2⟩ h
  simp only [SessionTokenData.serialize, Nat.pair_eq_pair] at h
  obtain ⟨h1, h2, h3⟩ := h
  simp [h1, h2, h3]

lemma decode_encode_eq (d : SessionTokenData) (k : SessionTokenSecret) :
    SessionToken.decode (SessionToken.encode d k) k = some d := by
  simp [SessionToken.decode, SessionToken.encode]

lemma verify_encode_eq (d : SessionTokenData) (k : SessionTokenSecret) :
    SessionToken.verify (SessionToken.encode d k) k =
      some (SessionToken.encode d k) := by
  simp [SessionToken.verify, decode_encode_eq]

lemma encode_ne_of_payload_ne {d1 d2 : SessionTokenData} (k : SessionTokenSecret)
    (h : d1 ≠ d2) :
    SessionToken.encode d1 k ≠ SessionToken.encode d2 k := by
  intro hh
  exact h (by simpa [SessionToken.encode] using congrArg SessionToken.payload hh)

lemma storeGet_setEx_self (st : SessionStore) (key : Uuid) (v : SessionToken)
    (ttl : Nat) : storeGet (storeSetEx st key v ttl) key = some v := by
  simp [storeSetEx, storeGet]

lemma storeGet_storeDel_self (st : SessionStore) (key : Uuid) :
    storeGet (storeDel st key) key = none := by
  induction st with
  | nil => rfl
  | cons e rest ih =>
    obtain ⟨k, v, ttl⟩ := e
    by_cases h : k = key
    · simpa [storeDel, List.filter_cons, h] using ih
    · simpa [storeDel, List.filter_cons, h, storeGet] using ih

lemma delete_session_fst (st : SessionStore) (key : Uuid) :
    (delete_session key st).1 = (storeGet st key).isSome := by
  induction st with
  | nil => rfl
  | cons e rest ih =>
    obtain ⟨k, v, ttl⟩ := e
    by_cases h : k = key
    · simp [delete_session, storeDelCount, List.filter_cons, h, storeGet]
    · simpa [delete_session, storeDelCount, List.filter_cons, h, storeGet] using ih

lemma refresh_of_canonical (cfg : Config) (tid : Uuid) (d : SessionTokenData)
    (st : SessionStore)
    (h : storeGet st d.session_id =
      some (SessionToken.encode d cfg.session_token_secret)) :
    refresh cfg tid (SessionToken.encode d cfg.session_token_secret) st =
      (some (SessionToken.encode ⟨d.session_id, tid, d.user_id⟩
          cfg.session_token_secret),
        storeSetEx st d.session_id
          (SessionToken.encode ⟨d.session_id, tid, d.user_id⟩
            cfg.session_token_secret)
          cfg.session_token_expiration_seconds) := by
  simp [refresh, decode_encode_eq, find_session, h, verify_encode_eq]

lemma refresh_stale (cfg : Config) (tid : Uuid) (d1 d2 : SessionTokenData)
    (st : SessionStore)
    (h : storeGet st d1.session_id =
      some (SessionToken.encode d2 cfg.session_token_secret))
    (hne : d2 ≠ d1) :
    refresh cfg tid (SessionToken.encode d1 cfg.session_token_secret) st =
      (none, st) := by
  have hne2 := encode_ne_of_payload_ne cfg.session_token_secret hne
  simp [refresh, decode_encode_eq, find_session, h, verify_encode_eq, hne2]

lemma refresh_no_session (cfg : Config) (tid : Uuid) (d : SessionTokenData)
    (st : SessionStore) (h : storeGet st d.session_id = none) :
    refresh cfg tid (SessionToken.encode d cfg.session_token_secret) st =
      (none, st) := by
  simp [refresh, decode_encode_eq, find_session, h]

lemma logout_match_eq (cfg : Config) (t : SessionToken) (st : SessionStore) :
    logout cfg t st =
      match SessionToken.decode t cfg.session_token_secret with
      | some d => ((storeGet st d.session_id).isSome, storeDel st d.session_id)
      | none => (false, st) := by
  cases hdec : SessionToken.decode t cfg.session_token_secret with
  | none => simp [logout, hdec]
  | some d =>
    simp only [logout, hdec, delete_session, Prod.mk.injEq]
    exact ⟨delete_session_fst st d.session_id, trivial⟩

/-! ### Claim theorems -/

/-- C4: for every `SessionTokenData d` and secret `k`, decoding the encoding
of `d` under `k` with the same secret `k` round-trips to `some d`. -/
theorem decode_encode_roundtrip (d : SessionTokenData) (k : SessionTokenSecret) :
    SessionToken.decode (SessionToken.encode d k) k = some d :=
  decode_encode_eq d k

/-- C5: a token encoded under secret `k1` never decodes under a different
secret `k2`: the signature check fails and `decode` returns `none`. -/
theorem wrong_key_rejection (d : SessionTokenData) (k1 k2 : SessionTokenSecret)
    (h : k1 ≠ k2) :
    SessionToken.decode (SessionToken.encode d k1) k2 = none := by
  simp only [SessionToken.decode, SessionToken.encode]
  rw [if_neg]
  intro hh
  exact h (Nat.pair_eq_pair.mp hh).1

/-- C5 witness: concrete wrong-key rejection at secrets 0 and 1. -/
theorem wrong_key_rejection_witness :
    SessionToken.decode (SessionToken.encode ⟨1, 2, 3⟩ 0) 1 = none :=
  wrong_key_rejection ⟨1, 2, 3⟩ 0 1 (by decide)

/-- C9: `verify` applied to a token produced by `encode` returns exactly the
same token: decoding and deterministically re-signing an issued token is the
identity, so the equality check in `refresh` compares against the stored
canonical token itself. -/
theorem verify_encode_identity (d : SessionTokenData) (k : SessionTokenSecret) :
    SessionToken.verify (SessionToken.encode d k) k =
      some (SessionToken.encode d k) :=
  verify_encode_eq d k

/-- C10: whenever `refresh` returns `none` — signature failure, absent
session record, or mismatch with the stored canonical token — the session
store is returned exactly as it was: no write occurs on any failure path. -/
theorem refresh_failure_frame (cfg : Config) (tid : Uuid) (t : SessionToken)
    (st : SessionStore) (h : (refresh cfg tid t st).1 = none) :
    (refresh cfg tid t st).2 = st := by
  unfold refresh at h ⊢
  cases hdec : SessionToken.decode t cfg.session_token_secret with
  | none => simp [hdec]
  | some data =>
    cases hfind : find_session cfg data.session_id st with
    | none => simp [hdec, hfind]
    | some current =>
      by_cases hne : current ≠ t
      · simp [hdec, hfind, hne]
      · simp [hdec, hfind, hne] at h

/-- C10 witness: refreshing a validly signed token against an empty store
fails and leaves the store empty. -/
theorem refresh_failure_frame_witness :
    (refresh ⟨0, 3600, 600⟩ 5 (SessionToken.encode ⟨2, 3, 1⟩ 0) []).2 = [] :=
  refresh_failure_frame ⟨0, 3600, 600⟩ 5 (SessionToken.encode ⟨2, 3, 1⟩ 0) []
    (by decide)

/-- C7: `logout` decodes the presented token; on any validly signed token
(no equality check against the stored canonical token, so a superseded
token suffices) it deletes the store entry for the decoded `session_id`
and returns whether a record existed and was removed; a token that fails
to decode returns `false` and leaves the store untouched. -/
theorem logout_decode_only (cfg : Config) (t : SessionToken) (st : SessionStore) :
    logout cfg t st =
      match SessionToken.decode t cfg.session_token_secret with
      | some d => ((storeGet st d.session_id).isSome, storeDel st d.session_id)
      | none => (false, st) :=
  logout_match_eq cfg t st

/-- C8: every output of `generate_verification_code` has length 6 and each
character's code point lies in the half-open range of `'A'` (65) through
`'Y'` (89); in particular no draw of the RNG ever produces `'Z'` (90). -/
theorem generate_verification_code_range (rng : Nat → Nat) :
    (generate_verification_code rng).length = 6
    ∧ ((generate_verification_code rng).all (fun c => 65 ≤ c && c ≤ 89)) = true
    ∧ ((generate_verification_code rng).all (fun c => c != 90)) = true := by
  refine ⟨by simp [generate_verification_code], ?_, ?_⟩
  · simp only [generate_verification_code, gen_range_A_to_Z_exclusive,
      List.all_eq_true, List.mem_map, List.mem_range]
    rintro c ⟨i, _, rfl⟩
    have h : rng i % 25 < 25 := Nat.mod_lt _ (by omega)
    simp only [Bool.and_eq_true, decide_eq_true_eq]
    omega
  · simp only [generate_verification_code, gen_range_A_to_Z_exclusive,
      List.all_eq_true, List.mem_map, List.mem_range]
    rintro c ⟨i, _, rfl⟩
    have h : rng i % 25 < 25 := Nat.mod_lt _ (by omega)
    simp only [bne_iff_ne, ne_eq]
    omega

/-- C1: rotation invalidation — if `t1 = create(u)` and `t2 = refresh(t1)`
succeeds, then a subsequent `refresh(t1)` returns `none` (the superseded
token fails the equality check against the stored canonical token) while
`refresh(t2)` succeeds. The freshly minted token IDs are explicit; the
freshness of the UUID minted by the successful refresh is `hfresh`. -/
theorem rotation_invalidation (cfg : Config) (u sid tid1 tid2 tid3 tid4 : Uuid)
    (st0 : SessionStore) (t1 t2 : SessionToken) (st1 st2 : SessionStore)
    (hfresh : tid2 ≠ tid1)
    (hcreate : create_session cfg u sid tid1 st0 = (t1, st1))
    (hrefresh : refresh cfg tid2 t1 st1 = (some t2, st2)) :
    (refresh cfg tid3 t1 st2).1 = none
    ∧ (refresh cfg tid4 t2 st2).1.isSome = true := by
  have ht1 : t1 = SessionToken.encode ⟨sid, tid1, u⟩ cfg.session_token_secret :=
    (congrArg Prod.fst hcreate).symm
  have hst1 : st1 = storeSetEx st0 sid
      (SessionToken.encode ⟨sid, tid1, u⟩ cfg.session_token_secret)
      cfg.session_token_expiration_seconds :=
    (congrArg Prod.snd hcreate).symm
  subst ht1 hst1
  rw [refresh_of_canonical cfg tid2 ⟨sid, tid1, u⟩ _
    (storeGet_setEx_self st0 sid _ _)] at hrefresh
  have ht2 : t2 = SessionToken.encode ⟨sid, tid2, u⟩ cfg.session_token_secret :=
    (Option.some.inj (congrArg Prod.fst hrefresh)).symm
  have hst2 : st2 = storeSetEx
      (storeSetEx st0 sid
        (SessionToken.encode ⟨sid, tid1, u⟩ cfg.session_token_secret)
        cfg.session_token_expiration_seconds)
      sid (SessionToken.encode ⟨sid, tid2, u⟩ cfg.session_token_secret)
      cfg.session_token_expiration_seconds :=
    (congrArg Prod.snd hrefresh).symm
  subst ht2 hst2
  constructor
  · rw [refresh_stale cfg tid3 ⟨sid, tid1, u⟩ ⟨sid, tid2, u⟩ _
      (storeGet_setEx_self _ sid _ _) (by simp [hfresh])]
  · rw [refresh_of_canonical cfg tid4 ⟨sid, tid2, u⟩ _
      (storeGet_setEx_self _ sid _ _)]
    rfl

/-- C1 witness: the rotation scenario at concrete values (secret 0, user 1,
session 2, successive token IDs 3, 4 and fresh IDs 5, 6). -/
theorem rotation_invalidation_witness :
    (refresh ⟨0, 3600, 600⟩ 5 (SessionToken.encode ⟨2, 3, 1⟩ 0)
        [(2, SessionToken.encode ⟨2, 4, 1⟩ 0, 3600)]).1 = none
    ∧ (refresh ⟨0, 3600, 600⟩ 6 (SessionToken.encode ⟨2, 4, 1⟩ 0)
        [(2, SessionToken.encode ⟨2, 4, 1⟩ 0, 3600)]).1.isSome = true :=
  rotation_invalidation ⟨0, 3600, 600⟩ 1 2 3 4 5 6 []
    (SessionToken.encode ⟨2, 3, 1⟩ 0) (SessionToken.encode ⟨2, 4, 1⟩ 0)
    [(2, SessionToken.encode ⟨2, 3, 1⟩ 0, 3600)]
    [(2, SessionToken.encode ⟨2, 4, 1⟩ 0, 3600)]
    (by decide) (by decide) (by decide)

/-- C2: logout finality — with `t1` superseded and `t2` current, `logout(t2)`
returns `true`; afterwards `refresh(t1)` and `refresh(t2)` both return
`none` and a second `logout(t2)` returns `false` (the session record is
gone, so the deletion removes zero keys). -/
theorem logout_finality (cfg : Config) (u sid tid1 tid2 tid3 tid4 : Uuid)
    (st0 : SessionStore) (t1 t2 : SessionToken) (st1 st2 st3 : SessionStore)
    (b : Bool)
    (hcreate : create_session cfg u sid tid1 st0 = (t1, st1))
    (hrefresh : refresh cfg tid2 t1 st1 = (some t2, st2))
    (hlogout : logout cfg t2 st2 = (b, st3)) :
    b = true
    ∧ (refresh cfg tid3 t1 st3).1 = none
    ∧ (refresh cfg tid4 t2 st3).1 = none
    ∧ (logout cfg t2 st3).1 = false := by
  have ht1 : t1 = SessionToken.encode ⟨sid, tid1, u⟩ cfg.session_token_secret :=
    (congrArg Prod.fst hcreate).symm
  have hst1 : st1 = storeSetEx st0 sid
      (SessionToken.encode ⟨sid, tid1, u⟩ cfg.session_token_secret)
      cfg.session_token_expiration_seconds :=
    (congrArg Prod.snd hcreate).symm
  subst ht1 hst1
  rw [refresh_of_canonical cfg tid2 ⟨sid, tid1, u⟩ _
    (storeGet_setEx_self st0 sid _ _)] at hrefresh
  have ht2 : t2 = SessionToken.encode ⟨sid, tid2, u⟩ cfg.session_token_secret :=
    (Option.some.inj (congrArg Prod.fst hrefresh)).symm
  have hst2 : st2 = storeSetEx
      (storeSetEx st0 sid
        (SessionToken.encode ⟨sid, tid1, u⟩ cfg.session_token_secret)
        cfg.session_token_expiration_seconds)
      sid (SessionToken.encode ⟨sid, tid2, u⟩ cfg.session_token_secret)
      cfg.session_token_expiration_seconds :=
    (congrArg Prod.snd hrefresh).symm
  subst ht2 hst2
  rw [logout_match_eq, decode_encode_eq] at hlogout
  have hb : b = (storeGet (storeSetEx
      (storeSetEx st0 sid
        (SessionToken.encode ⟨sid, tid1, u⟩ cfg.session_token_secret)
        cfg.session_token_expiration_seconds)
      sid (SessionToken.encode ⟨sid, tid2, u⟩ cfg.session_token_secret)
      cfg.session_token_expiration_seconds) sid).isSome :=
    (congrArg Prod.fst hlogout).symm
  have hst3 : st3 = storeDel (storeSetEx
      (storeSetEx st0 sid
        (SessionToken.encode ⟨sid, tid1, u⟩ cfg.session_token_secret)
        cfg.session_token_expiration_seconds)
      sid (SessionToken.encode ⟨sid, tid2, u⟩ cfg.session_token_secret)
      cfg.session_token_expiration_seconds) sid :=
    (congrArg Prod.snd hlogout).symm
  subst hst3
  refine ⟨?_, ?_, ?_, ?_⟩
  · rw [hb, storeGet_setEx_self]
    rfl
  · rw [refresh_no_session cfg tid3 ⟨sid, tid1, u⟩ _ (storeGet_storeDel_self _ sid)]
  · rw [refresh_no_session cfg tid4 ⟨sid, tid2, u⟩ _ (storeGet_storeDel_self _ sid)]
  · rw [logout_match_eq, decode_encode_eq]
    simp [storeGet_storeDel_self]

/-- C2 witness: the logout-finality scenario at concrete values (secret 0,
user 1, session 2, token IDs 3 and 4, fresh IDs 5 and 6). -/
theorem logout_finality_witness :
    true = true
    ∧ (refresh ⟨0, 3600, 600⟩ 5 (SessionToken.encode ⟨2, 3, 1⟩ 0) []).1 = none
    ∧ (refresh ⟨0, 3600, 600⟩ 6 (SessionToken.encode ⟨2, 4, 1⟩ 0) []).1 = none
    ∧ (logout ⟨0, 3600, 600⟩ (SessionToken.encode ⟨2, 4, 1⟩ 0) []).1 = false :=
  logout_finality ⟨0, 3600, 600⟩ 1 2 3 4 5 6 []
    (SessionToken.encode ⟨2, 3, 1⟩ 0) (SessionToken.encode ⟨2, 4, 1⟩ 0)
    [(2, SessionToken.encode ⟨2, 3, 1⟩ 0, 3600)]
    [(2, SessionToken.encode ⟨2, 4, 1⟩ 0, 3600)] [] true
    (by decide) (by decide) (by decide)

lemma refresh_chain_canonical (cfg : Config) (u sid : Uuid) (tids : List Uuid) :
    ∀ (tid : Uuid) (st : SessionStore),
      storeGet st sid =
        some (SessionToken.encode ⟨sid, tid, u⟩ cfg.session_token_secret) →
      (refresh_chain cfg tids
          (SessionToken.encode ⟨sid, tid, u⟩ cfg.session_token_secret) st).1 =
        tids.map
          (fun tid2 => SessionToken.encode ⟨sid, tid2, u⟩ cfg.session_token_secret) := by
  induction tids with
  | nil => intro tid st _; rfl
  | cons tid2 rest ih =>
    intro tid st h
    rw [refresh_chain, refresh_of_canonical cfg tid2 ⟨sid, tid, u⟩ st h]
    simpa using ih tid2 _ (storeGet_setEx_self st sid _ _)

/-- C3: across any chain of successful refreshes starting from
`create(u)`, every issued token carries the same `session_id` and
`user_id` as the initial token and its `session_token_id` is exactly the
freshly minted UUID of that refresh (the chain of issued tokens is the
map of `encode` over the minted IDs); when the minted IDs are fresh at
every step, each refresh's output token differs from the presented token
in its `session_token_id`. -/
theorem refresh_identity_preservation (cfg : Config) (u sid tid0 : Uuid)
    (tids : List Uuid) (st0 : SessionStore) (t0 : SessionToken)
    (st1 : SessionStore)
    (hcreate : create_session cfg u sid tid0 st0 = (t0, st1))
    (hfresh : List.Chain' (fun a b => a ≠ b) (tid0 :: tids)) :
    (refresh_chain cfg tids t0 st1).1 =
      tids.map
        (fun tid => SessionToken.encode ⟨sid, tid, u⟩ cfg.session_token_secret)
    ∧ List.Chain'
        (fun a b => a.payload.session_token_id ≠ b.payload.session_token_id)
        (t0 :: (refresh_chain cfg tids t0 st1).1) := by
  have ht0 : t0 = SessionToken.encode ⟨sid, tid0, u⟩ cfg.session_token_secret :=
    (congrArg Prod.fst hcreate).symm
  have hst1 : st1 = storeSetEx st0 sid
      (SessionToken.encode ⟨sid, tid0, u⟩ cfg.session_token_secret)
      cfg.session_token_expiration_seconds :=
    (congrArg Prod.snd hcreate).symm
  subst ht0 hst1
  have hmap := refresh_chain_canonical cfg u sid tids tid0
    (storeSetEx st0 sid
      (SessionToken.encode ⟨sid, tid0, u⟩ cfg.session_token_secret)
      cfg.session_token_expiration_seconds)
    (storeGet_setEx_self st0 sid _ _)
  refine ⟨hmap, ?_⟩
  rw [hmap]
  have hcons :
      SessionToken.encode ⟨sid, tid0, u⟩ cfg.session_token_secret ::
        tids.map
          (fun tid => SessionToken.encode ⟨sid, tid, u⟩ cfg.session_token_secret) =
      (tid0 :: tids).map
        (fun tid => SessionToken.encode ⟨sid, tid, u⟩ cfg.session_token_secret) := rfl
  rw [hcons, List.chain'_map]
  simpa [SessionToken.encode] using hfresh

/-- C3 witness: a two-step refresh chain from `create` at concrete values
(secret 0, user 1, session 2, initial token ID 3, fresh IDs 4 and 5). -/
theorem refresh_identity_preservation_witness :
    (refresh_chain ⟨0, 3600, 600⟩ [4, 5] (SessionToken.encode ⟨2, 3, 1⟩ 0)
        [(2, SessionToken.encode ⟨2, 3, 1⟩ 0, 3600)]).1 =
      [SessionToken.encode ⟨2, 4, 1⟩ 0, SessionToken.encode ⟨2, 5, 1⟩ 0]
    ∧ List.Chain'
        (fun a b => a.payload.session_token_id ≠ b.payload.session_token_id)
        (SessionToken.encode ⟨2, 3, 1⟩ 0 ::
          (refresh_chain ⟨0, 3600, 600⟩ [4, 5] (SessionToken.encode ⟨2, 3, 1⟩ 0)
            [(2, SessionToken.encode ⟨2, 3, 1⟩ 0, 3600)]).1) := by
  have h := refresh_identity_preservation ⟨0, 3600, 600⟩ 1 2 3 [4, 5] []
    (SessionToken.encode ⟨2, 3, 1⟩ 0)
    [(2, SessionToken.encode ⟨2, 3, 1⟩ 0, 3600)] (by decide)
    (by simp [List.chain'_cons, List.chain'_singleton])
  simpa using h

lemma codeGet_codeDel_self (store : CodeStore) (key : String) :
    codeGet (codeDel store key) key = none := by
  induction store with
  | nil => rfl
  | cons e rest ih =>
    obtain ⟨k, v, ttl⟩ := e
    by_cases h : k = key
    · simpa [codeDel, List.filter_cons, h] using ih
    · simpa [codeDel, List.filter_cons, h, codeGet] using ih

lemma find_user_db_set (db : Db) (u : Uuid) (ts : Option Nat) (user : User)
    (h : find_user db u = some user) :
    find_user (db_set_email_verified_at db u ts) u =
      some { user with email_verified_at := ts } := by
  unfold find_user at h ⊢
  have hid := List.find?_some h
  unfold db_set_email_verified_at
  rw [List.find?_map]
  have hp : ((fun x : User => x.id == u) ∘
      (fun x : User =>
        if x.id == u then { x with email_verified_at := ts } else x)) =
      (fun x : User => x.id == u) := by
    funext x
    by_cases hx : x.id = u <;> simp [hx]
  rw [hp, h]
  have hid2 : user.id = u := by simpa using hid
  simp [hid2]

/-- C6: with a user `(u, email)` in the database and a stored code `code`
for that pair — `check` with the exact code returns `true`, marks the user
verified and deletes the stored record; `check` with any other string
returns `false` and leaves database and code store untouched, so the
correct code still succeeds afterwards; repeating `check` after a success
returns `false` (the code was consumed). -/
theorem verification_code_single_use (now now2 : Nat) (db : Db) (u : Uuid)
    (email code wrong : String) (user : User) (codes : CodeStore)
    (huser : find_user db u = some user)
    (hemail : user.email = email)
    (hstored : codeGet codes (create_email_verification_key u email) = some code)
    (hwrong : wrong ≠ code) :
    verify_user_email_address now db u code codes =
      (true, db_set_email_verified_at db u (some now),
        codeDel codes (create_email_verification_key u email))
    ∧ verify_user_email_address now db u wrong codes = (false, db, codes)
    ∧ (verify_user_email_address now2
        (verify_user_email_address now db u wrong codes).2.1 u code
        (verify_user_email_address now db u wrong codes).2.2).1 = true
    ∧ (verify_user_email_address now2
        (verify_user_email_address now db u code codes).2.1 u code
        (verify_user_email_address now db u code codes).2.2).1 = false := by
  have hid : user.id = u := by
    have h2 := huser
    unfold find_user at h2
    have hbeq := List.find?_some h2
    simpa using hbeq
  have hsucc : ∀ n : Nat, verify_user_email_address n db u code codes =
      (true, db_set_email_verified_at db u (some n),
        codeDel codes (create_email_verification_key u email)) := by
    intro n
    simp [verify_user_email_address, huser, hid, hemail, hstored]
  have hfail : verify_user_email_address now db u wrong codes =
      (false, db, codes) := by
    simp [verify_user_email_address, huser, hid, hemail, hstored, Ne.symm hwrong]
  refine ⟨hsucc now, hfail, ?_, ?_⟩
  · rw [hfail]
    rw [hsucc now2]
  · rw [hsucc now]
    have huser2 := find_user_db_set db u (some now) user huser
    simp [verify_user_email_address, huser2, hid, hemail, codeGet_codeDel_self]

/-- C6 witness: the single-use scenario at concrete values (user 7 with
email address `a@b` and stored code `ABCDEF`). -/
theorem verification_code_single_use_witness :
    verify_user_email_address 0 [⟨7, "a@b", none⟩] 7 "ABCDEF"
        [("verify/7/a@b", "ABCDEF", 600)] =
      (true, db_set_email_verified_at [⟨7, "a@b", none⟩] 7 (some 0),
        codeDel [("verify/7/a@b", "ABCDEF", 600)]
          (create_email_verification_key 7 "a@b"))
    ∧ verify_user_email_address 0 [⟨7, "a@b", none⟩] 7 "WRONG"
        [("verify/7/a@b", "ABCDEF", 600)] =
      (false, [⟨7, "a@b", none⟩], [("verify/7/a@b", "ABCDEF", 600)])
    ∧ (verify_user_email_address 1
        (verify_user_email_address 0 [⟨7, "a@b", none⟩] 7 "WRONG"
          [("verify/7/a@b", "ABCDEF", 600)]).2.1 7 "ABCDEF"
        (verify_user_email_address 0 [⟨7, "a@b", none⟩] 7 "WRONG"
          [("verify/7/a@b", "ABCDEF", 600)]).2.2).1 = true
    ∧ (verify_user_email_address 1
        (verify_user_email_address 0 [⟨7, "a@b", none⟩] 7 "ABCDEF"
          [("verify/7/a@b", "ABCDEF", 600)]).2.1 7 "ABCDEF"
        (verify_user_email_address 0 [⟨7, "a@b", none⟩] 7 "ABCDEF"
          [("verify/7/a@b", "ABCDEF", 600)]).2.2).1 = false :=
  verification_code_single_use 0 1 [⟨7, "a@b", none⟩] 7 "a@b" "ABCDEF" "WRONG"
    ⟨7, "a@b", none⟩ [("verify/7/a@b", "ABCDEF", 600)]
    (by decide) (by decide) (by decide) (by decide)
